import Mathlib
set_option maxRecDepth 100000
set_option maxHeartbeats 1000000
/-!
Verification development for the attendance-vs-overtime reconciliation app
(src/app.py).  The dynamically typed pandas values are embedded as an
inductive `CellValue` (Python floats are modelled as rationals), tables as a
header list plus row-major cell grid, and each core function of the source
(`normalize_column_names`, `find_column`, `convert_to_hours`,
`hours_to_hhmm`, `parse_dd_mm_yyyy`, `get_rkp_pic`, `process_overtime_data`,
`create_summary_table`) is translated into an executable Lean definition.
-/
/-- A dynamically typed pandas cell value.  Python floats are modelled as
rationals; `na` stands for NaN/NaT/None (everything `pd.isna` accepts). -/
inductive CellValue where
  | na
  | int (i : Int)
  | float (q : ℚ)
  | timedelta (seconds : ℚ)
  | timeOfDay (hour minute second : Nat)
  | date (y m d : Nat)
  | str (s : String)
deriving DecidableEq, Repr
/-- pd.isna on a scalar cell. -/
def isna : CellValue → Bool
  | .na => true
  | _ => false
/-- Fuel-driven digit accumulator (structural recursion keeps kernel
reduction cheap); the fuel is always at least the value. -/
def natDigitsAux : Nat → Nat → List Char → List Char
  | 0, n, acc => Char.ofNat (48 + n % 10) :: acc
  | fuel + 1, n, acc =>
    if n < 10 then Char.ofNat (48 + n) :: acc
    else natDigitsAux fuel (n / 10) (Char.ofNat (48 + n % 10) :: acc)
/-- Decimal digits of a natural number, most significant first. -/
def natDigits (n : Nat) : List Char := natDigitsAux n n []
/-- Decimal rendering of a natural number. -/
def natRepr (n : Nat) : String := String.mk (natDigits n)
/-- Decimal rendering of an integer (Python repr of an int). -/
def intRepr (i : Int) : String :=
  if i < 0 then String.mk ('-' :: natDigits i.natAbs) else natRepr i.natAbs
/-- Zero-pad a natural rendering on the left to the given width. -/
def padNat (width n : Nat) : String :=
  let s := natRepr n
  if s.length < width then String.mk (List.replicate (width - s.length) '0') ++ s else s
/-- The Python format spec 02d applied to an integer: zero-pad to width 2
(the sign counts toward the width, as in Python). -/
def pad2 (i : Int) : String :=
  let s := intRepr i
  if s.length < 2 then String.mk (List.replicate (2 - s.length) '0') ++ s else s
/-- Best-effort Python str() of a float modelled as a rational.  Only the
integer-valued case is rendered faithfully; no claim evaluates str() on a
non-integral float. -/
def ratRepr (q : ℚ) : String :=
  if q.den = 1 then intRepr q.num ++ (".0") else intRepr q.num ++ ("/") ++ natRepr q.den
/-- Python str() of a cell value (pandas astype(str) on one element).
String, int and NaN cases are the ones the claims exercise; the remaining
library reprs are rendered best-effort. -/
def pyStr : CellValue → String
  | .na => ("nan")
  | .int i => intRepr i
  | .float q => ratRepr q
  | .timedelta secs => ratRepr secs ++ (" seconds")
  | .timeOfDay h m s => pad2 h ++ (":") ++ pad2 m ++ (":") ++ pad2 s
  | .date y m d => padNat 4 y ++ ("-") ++ padNat 2 m ++ ("-") ++ padNat 2 d ++ (" 00:00:00")
  | .str s => s
/-- The Python str.strip method: drop leading and trailing whitespace. -/
def pyStrip (s : String) : String :=
  String.mk (((s.data.dropWhile Char.isWhitespace).reverse.dropWhile Char.isWhitespace).reverse)
/-- The Python str.lower method (ASCII letters, as the inputs at hand). -/
def pyLower (s : String) : String := String.mk (s.data.map Char.toLower)
/-- ASCII alphanumeric test, matching the regex class of a-z, A-Z and 0-9. -/
def isAsciiAlphanum (c : Char) : Bool := c.isAlpha || c.isDigit
/-- Header normalization used throughout src/app.py: drop every character
outside a-z, A-Z, 0-9 and lower-case the rest. -/
def normCol (s : String) : String :=
  String.mk ((s.data.filter isAsciiAlphanum).map Char.toLower)
/-- Greedy run of decimal digits at the head of a character list. -/
def takeDigits : List Char → (List Char × List Char)
  | [] => ([], [])
  | c :: cs =>
    if c.isDigit then
      let p := takeDigits cs
      (c :: p.1, p.2)
    else ([], c :: cs)
/-- Numeric value of a digit run (most significant first). -/
def digitsToNat (ds : List Char) : Nat :=
  ds.foldl (fun acc c => 10 * acc + (c.toNat - 48)) 0
/-- One-or-more digits at the head of the input, with the rest. -/
def parseNatPrefix (cs : List Char) : Option (Nat × List Char) :=
  let p := takeDigits cs
  if p.1.isEmpty then none else some (digitsToNat p.1, p.2)
/-- The anchored regex of convert_to_hours: digits, colon, digits, an
optional colon and optional trailing seconds digits, nothing else.
Returns (hours, minutes, seconds), with absent seconds read as 0. -/
def timePatternMatch (s : String) : Option (Nat × Nat × Nat) :=
  match parseNatPrefix s.data with
  | some (h, ':' :: rest) =>
    match parseNatPrefix rest with
    | some (m, rest2) =>
      match rest2 with
      | [] => some (h, m, 0)
      | [':'] => some (h, m, 0)
      | ':' :: rest3 =>
        match parseNatPrefix rest3 with
        | some (s3, []) => some (h, m, s3)
        | _ => none
      | _ => none
    | none => none
  | _ => none
/-- Substring containment test (the Python operator in on strings). -/
def strContainsSub (s pat : String) : Bool :=
  s.data.tails.any (fun t => pat.data.isPrefixOf t)
/-- Drop leading spaces. -/
def dropSpaces : List Char → List Char
  | ' ' :: cs => dropSpaces cs
  | cs => cs
/-- Second half of the modelled pandas to_timedelta grammar: either the end
of the input (whole days) or an HH:MM or HH:MM:SS time part. -/
def timePartOrEnd (n : Nat) (cs : List Char) : Option ℚ :=
  if cs.isEmpty then some ((n : ℚ) * 86400)
  else
    match timePatternMatch (String.mk cs) with
    | some (h, m, s) => some ((n : ℚ) * 86400 + (h : ℚ) * 3600 + (m : ℚ) * 60 + (s : ℚ))
    | none => none
/-- Modelled library call: pandas to_timedelta restricted to the grammar of
a day count, the word day or days, and an optional clock part; anything
else raises ValueError (returned here as none).  Yields total seconds. -/
def pd_to_timedelta (s : String) : Option ℚ :=
  let cs := dropSpaces (pyStrip s).data
  match parseNatPrefix cs with
  | none => none
  | some (n, rest) =>
    let rest2 := dropSpaces rest
    if ['d', 'a', 'y', 's'].isPrefixOf rest2 then
      timePartOrEnd n (dropSpaces (rest2.drop 4))
    else if ['d', 'a', 'y'].isPrefixOf rest2 then
      timePartOrEnd n (dropSpaces (rest2.drop 3))
    else none
/-- An optional leading sign, returned as a multiplier. -/
def parseSign : List Char → (Int × List Char)
  | '+' :: cs => (1, cs)
  | '-' :: cs => (-1, cs)
  | cs => (1, cs)
/-- A signed decimal integer filling the whole remaining input. -/
def parseSignedIntEnd (cs : List Char) : Option Int :=
  let p := parseSign cs
  match takeDigits p.2 with
  | (ds, []) => if ds.isEmpty then none else some (p.1 * (digitsToNat ds : Int))
  | _ => none
/-- Optional exponent part at the end of a float literal. -/
def parseExpPart : List Char → Option Int
  | [] => some 0
  | 'e' :: cs => parseSignedIntEnd cs
  | 'E' :: cs => parseSignedIntEnd cs
  | _ => none
/-- Integer power of ten as a rational. -/
def qpow10 (e : Int) : ℚ :=
  if 0 ≤ e then ((10 : ℚ) ^ e.toNat) else 1 / ((10 : ℚ) ^ (-e).toNat)
/-- Modelled library call: the Python float() constructor on a stripped
string (sign, digits, optional fraction, optional exponent).  Special
values such as nan or inf and underscore separators are not modelled and
parse as none (ValueError). -/
def parsePyFloat (s : String) : Option ℚ :=
  let p0 := parseSign s.data
  let p1 := takeDigits p0.2
  let ip := p1.1
  match p1.2 with
  | '.' :: r =>
    let p2 := takeDigits r
    let fp := p2.1
    if ip.isEmpty && fp.isEmpty then none
    else
      match parseExpPart p2.2 with
      | none => none
      | some e =>
        some ((p0.1 : ℚ) * ((digitsToNat ip : ℚ) + (digitsToNat fp : ℚ) / ((10 : ℚ) ^ fp.length)) * qpow10 e)
  | r =>
    if ip.isEmpty then none
    else
      match parseExpPart r with
      | none => none
      | some e => some ((p0.1 : ℚ) * (digitsToNat ip : ℚ) * qpow10 e)
/-- The Python exceptions relevant to convert_to_hours. -/
inductive PyExn where
  | valueError
  | typeError
  | otherError
deriving DecidableEq, Repr
/-- The string half of the convert_to_hours try block, applied to the
already stripped str() of the value: the day-token branch through
pd.to_timedelta, then the clock regex, then the bare float parse; the
modelled fallible library calls throw ValueError on failure. -/
def convert_to_hours_str (time_str : String) : Except PyExn ℚ :=
  if strContainsSub time_str ("day") || strContainsSub time_str ("days") then
    match pd_to_timedelta time_str with
    | some secs => .ok (secs / 3600)
    | none => .error .valueError
  else
    match timePatternMatch time_str with
    | some (h, m, s) => .ok ((h : ℚ) + (m : ℚ) / 60 + (s : ℚ) / 3600)
    | none =>
      match parsePyFloat time_str with
      | some q => .ok q
      | none => .error .valueError
/-- The try-block body of convert_to_hours from src/app.py: a dispatch on
the runtime shape of the value, falling back to the stripped string
form. -/
def convert_to_hours_body (time_value : CellValue) : Except PyExn ℚ :=
  match time_value with
  | .int i => .ok (i : ℚ)
  | .float q => .ok q
  | .timedelta secs => .ok (secs / 3600)
  | .timeOfDay h m s => .ok ((h : ℚ) + (m : ℚ) / 60 + (s : ℚ) / 3600)
  | v => convert_to_hours_str (pyStrip (pyStr v))
/-- convert_to_hours from src/app.py with its exception behavior explicit:
the early pd.isna test returns 0.0, and the except clause catches exactly
ValueError and TypeError, turning them into 0.0; any other exception would
propagate (as an error value here). -/
def convert_to_hoursE (time_value : CellValue) : Except PyExn ℚ :=
  if isna time_value then .ok 0
  else
    match convert_to_hours_body time_value with
    | .ok q => .ok q
    | .error .valueError => .ok 0
    | .error .typeError => .ok 0
    | .error e => .error e
/-- convert_to_hours as the plain function the rest of the pipeline calls
(the totality theorem for claim C5 shows the error projection is never
taken). -/
def convert_to_hours (time_value : CellValue) : ℚ :=
  match convert_to_hoursE time_value with
  | .ok q => q
  | .error _ => 0
/-- int() truncation toward zero on a rational. -/
def pyTruncInt (q : ℚ) : Int := if 0 ≤ q then ⌊q⌋ else ⌈q⌉
/-- hours_to_hhmm from src/app.py: zero renders as 00:00, otherwise the
hours are truncated to whole minutes and rendered as zero-padded HH:MM
(Python floor division and modulus on the minute count).  The pd.isna
branch is dropped because rationals have no NaN. -/
def hours_to_hhmm (hours : ℚ) : String :=
  if hours = 0 then ("00:00")
  else
    let total_minutes := pyTruncInt (hours * 60)
    pad2 (Int.fdiv total_minutes 60) ++ (":") ++ pad2 (Int.emod total_minutes 60)
/-- A pandas DataFrame: ordered headers plus a row-major grid of cells. -/
structure Table where
  headers : List String
  rows : List (List CellValue)
deriving DecidableEq, Repr
/-- The pandas DataFrame.empty test: true when either axis has length 0. -/
def Table.isEmptyDf (t : Table) : Bool := t.rows.isEmpty || t.headers.isEmpty
/-- normalize_column_names from src/app.py: empty frames pass through,
otherwise every header is normalized. -/
def normalize_column_names (df : Table) : Table :=
  if df.isEmptyDf then df else { df with headers := df.headers.map normCol }
/-- find_column from src/app.py: empty frames resolve nothing; otherwise
the first header (in order) whose normalized form is among the normalized
candidate names is returned, in normalized form. -/
def find_column (df : Table) (possible_names : List String) : Option String :=
  if df.isEmptyDf then none
  else
    let names := possible_names.map normCol
    (normalize_column_names df).headers.find? (fun c => names.contains c)
/-- Cell of a row under a column label (first matching header position). -/
def rowCell (df : Table) (row : List CellValue) (c : String) : CellValue :=
  match df.headers.findIdx? (fun h => h == c) with
  | some i => row.getD i .na
  | none => .na
/-- The values of one column, top to bottom. -/
def colValues (df : Table) (c : String) : List CellValue :=
  df.rows.map (fun r => rowCell df r c)
/-- In-place overwrite of one column by a cell-wise function (the pandas
column assignment df[c] = df[c].apply(f)). -/
def mapColumn (df : Table) (c : String) (f : CellValue → CellValue) : Table :=
  match df.headers.findIdx? (fun h => h == c) with
  | some i => { df with rows := df.rows.map (fun r => r.set i (f (r.getD i .na))) }
  | none => df
/-- Append a fresh column computed from each whole row. -/
def addColumn (df : Table) (c : String) (f : List CellValue → CellValue) : Table :=
  { headers := df.headers ++ [c], rows := df.rows.map (fun r => r ++ [f r]) }
/-- Append two fresh columns computed together from each whole row. -/
def addColumn2 (df : Table) (c1 c2 : String) (f : List CellValue → CellValue × CellValue) : Table :=
  { headers := df.headers ++ [c1, c2],
    rows := df.rows.map (fun r => r ++ [(f r).1, (f r).2]) }
/-- Gregorian leap-year test. -/
def isLeapYear (y : Nat) : Bool := (y % 4 = 0 && y % 100 ≠ 0) || y % 400 = 0
/-- Days in a month. -/
def daysInMonth (y m : Nat) : Nat :=
  if m = 2 then (if isLeapYear y then 29 else 28)
  else if m = 4 || m = 6 || m = 9 || m = 11 then 30 else 31
/-- The calendar validation strptime performs. -/
def validDate (y m d : Nat) : Bool :=
  1 ≤ y && y ≤ 9999 && 1 ≤ m && m ≤ 12 && 1 ≤ d && d ≤ daysInMonth y m
/-- The anchored pattern of one-or-two digits, a separator, one-or-two
digits, the separator again and exactly four digits; returned as
(first, second, year). -/
def matchDMY (sep : Char) (cs : List Char) : Option (Nat × Nat × Nat) :=
  let p1 := takeDigits cs
  if p1.1.length < 1 || 2 < p1.1.length then none
  else
    match p1.2 with
    | c :: r2 =>
      if c ≠ sep then none
      else
        let p2 := takeDigits r2
        if p2.1.length < 1 || 2 < p2.1.length then none
        else
          match p2.2 with
          | c2 :: r4 =>
            if c2 ≠ sep then none
            else
              let p3 := takeDigits r4
              if p3.1.length = 4 && p3.2.isEmpty then
                some (digitsToNat p1.1, digitsToNat p2.1, digitsToNat p3.1)
              else none
          | [] => none
    | [] => none
/-- ISO year-month-day pattern (four digits, dash, one or two digits, dash,
one or two digits), returned as (year, month, day). -/
def matchISO (cs : List Char) : Option (Nat × Nat × Nat) :=
  let p1 := takeDigits cs
  if p1.1.length ≠ 4 then none
  else
    match p1.2 with
    | '-' :: r2 =>
      let p2 := takeDigits r2
      if p2.1.length < 1 || 2 < p2.1.length then none
      else
        match p2.2 with
        | '-' :: r4 =>
          let p3 := takeDigits r4
          if (p3.1.length = 1 || p3.1.length = 2) && p3.2.isEmpty then
            some (digitsToNat p1.1, digitsToNat p2.1, digitsToNat p3.1)
          else none
        | _ => none
    | _ => none
/-- parse_dd_mm_yyyy from src/app.py, with NaT modelled as none: datetime
values pass through, day/month/year strings separated by slash or dash are
parsed and calendar-validated by strptime, and the general
pd.to_datetime(errors=coerce) fallback is modelled on ISO year-month-day
strings (anything else coerces to NaT). -/
def parse_dd_mm_yyyy (v : CellValue) : Option (Nat × Nat × Nat) :=
  match v with
  | .na => none
  | .date y m d => some (y, m, d)
  | v =>
    let s := pyStrip (pyStr v)
    match matchDMY '/' s.data with
    | some (d, m, y) => if validDate y m d then some (y, m, d) else none
    | none =>
      match matchDMY '-' s.data with
      | some (d, m, y) => if validDate y m d then some (y, m, d) else none
      | none =>
        match matchISO s.data with
        | some (y, m, d) => if validDate y m d then some (y, m, d) else none
        | none => none
/-- ISO rendering of a date, as strftime with the %Y-%m-%d format. -/
def isoDate (y m d : Nat) : String :=
  padNat 4 y ++ ("-") ++ padNat 2 m ++ ("-") ++ padNat 2 d
/-- The combined date-column transform of process_overtime_data:
parse_dd_mm_yyyy followed by pd.to_datetime(errors=coerce).dt.strftime, so
an unparseable date becomes a missing value, not an error. -/
def normDateCell (v : CellValue) : CellValue :=
  match parse_dd_mm_yyyy v with
  | some (y, m, d) => .str (isoDate y m d)
  | none => .na
/-- Characters the employee join key keeps: a-z, 0-9 and whitespace. -/
def isNameKeep (c : Char) : Bool := ('a' ≤ c && c ≤ 'z') || c.isDigit || c.isWhitespace
/-- normalize_name from src/app.py: NaN becomes the empty string, anything
else is stringified, stripped, lower-cased and filtered to the class of
a-z, 0-9 and whitespace. -/
def normalize_name (v : CellValue) : String :=
  if isna v then ("")
  else String.mk ((pyLower (pyStrip (pyStr v))).data.filter isNameKeep)
/-- One row of rekap_df_mapped (the overtime log indexed by the normalized
(employee, date) pair, keeping source order). -/
structure RekapEntry where
  employee : CellValue
  date : CellValue
  duration_hhmm : String
  duration_hours : ℚ
deriving DecidableEq, Repr
/-- Projection of a string cell (the pipeline only reads string cells with
it; other shapes fall back to str()). -/
def cellStr : CellValue → String
  | .str s => s
  | v => pyStr v
/-- Projection of a numeric cell (the pipeline only reads float cells with
it). -/
def cellFloat : CellValue → ℚ
  | .float q => q
  | .int i => (i : ℚ)
  | _ => 0
/-- The column names process_overtime_data adds. -/
def durationHoursCol : String := "duration_hours"
/-- The formatted-duration column process_overtime_data adds. -/
def durationHhmmCol : String := "duration_hhmm"
/-- The merged overtime display column. -/
def rkpPicCol : String := "RKP_PIC"
/-- The merged overtime numeric column. -/
def rkpPicHoursCol : String := "RKP_PIC_HOURS"
/-- The set_index view of the processed overtime log, in source order. -/
def rekapMappedOf (rdf : Table) (empCol dateCol : String) : List RekapEntry :=
  rdf.rows.map (fun r =>
    { employee := rowCell rdf r empCol
      date := rowCell rdf r dateCol
      duration_hhmm := cellStr (rowCell rdf r durationHhmmCol)
      duration_hours := cellFloat (rowCell rdf r durationHoursCol) })
/-- get_rkp_pic from src/app.py: a missing employee or date yields the
unmatched result; otherwise the first overtime row carrying the same
(employee, date) key supplies its formatted and numeric duration, and a
KeyError (no such key) yields the unmatched result. -/
def get_rkp_pic (mapped : List RekapEntry) (employee date : CellValue) : String × ℚ :=
  if isna employee || isna date then (("00:00"), 0)
  else
    match mapped.find? (fun ent => decide (ent.employee = employee ∧ ent.date = date)) with
    | some ent => (ent.duration_hhmm, ent.duration_hours)
    | none => (("00:00"), 0)
/-- The candidate header names for the employee column. -/
def empAliases : List String := [("EmployeeName"), ("Employee"), ("NamaKaryawan"), ("Name"), ("Nama")]
/-- The candidate header names for the date column. -/
def dateAliases : List String := [("Date"), ("Tanggal"), ("Tgl")]
/-- The candidate header names for the overtime duration column. -/
def durAliases : List String := [("Duration"), ("Durasi"), ("LamaWaktu")]
/-- The candidate header names for the job position column. -/
def jobAliases : List String := [("JobPosition"), ("Position"), ("Posisi"), ("Jabatan")]
/-- The candidate header names for the shift column. -/
def shiftAliases : List String := [("Shift"), ("ShiftKerja"), ("Jadwal")]
/-- The candidate header names for the normal working time column. -/
def wtAliases : List String := [("WTNormal"), ("WT/Normal"), ("NormalHours"), ("JamNormal")]
/-- Error text of the missing overtime-file employee column (the leading
warning emoji of the displayed message is dropped). -/
def msgEmpOvertime : String := "Kolom Employee Name tidak ditemukan dalam file overtime!"
/-- Error text of the missing rekap-file employee column. -/
def msgEmpRekap : String := "Kolom Employee Name tidak ditemukan dalam file rekap!"
/-- Error text of the missing overtime-file date column. -/
def msgDateOvertime : String := "Kolom Date tidak ditemukan dalam file overtime!"
/-- Error text of the missing rekap-file date column. -/
def msgDateRekap : String := "Kolom Date tidak ditemukan dalam file rekap!"
/-- Error text of the missing rekap-file duration column. -/
def msgDuration : String := "Kolom Duration tidak ditemukan dalam file rekap!"
/-- process_overtime_data from src/app.py (the overtime_df argument is the
attendance table, rekap_df the overtime log, as in the source), run with
the processing-steps container enabled — its default — so the date and
name normalization blocks execute.  Returns the merged attendance table
and the processed overtime log, or the first missing-column error. -/
def process_overtime_data (overtime_df0 rekap_df0 : Table) : Except String (Table × Table) :=
  let overtime_df := normalize_column_names overtime_df0
  let rekap_df := normalize_column_names rekap_df0
  match find_column overtime_df empAliases with
  | none => .error msgEmpOvertime
  | some emp_col_overtime =>
  match find_column rekap_df empAliases with
  | none => .error msgEmpRekap
  | some emp_col_rekap =>
  match find_column overtime_df dateAliases with
  | none => .error msgDateOvertime
  | some date_col_overtime =>
  match find_column rekap_df dateAliases with
  | none => .error msgDateRekap
  | some date_col_rekap =>
  match find_column rekap_df durAliases with
  | none => .error msgDuration
  | some duration_col =>
    let odf1 := mapColumn overtime_df date_col_overtime normDateCell
    let rdf1 := mapColumn rekap_df date_col_rekap normDateCell
    let odf2 := mapColumn odf1 emp_col_overtime (fun v => .str (normalize_name v))
    let rdf2 := mapColumn rdf1 emp_col_rekap (fun v => .str (normalize_name v))
    let rdf3 := addColumn rdf2 durationHoursCol
      (fun r => .float (convert_to_hours (rowCell rdf2 r duration_col)))
    let rdf4 := addColumn rdf3 durationHhmmCol
      (fun r => .str (hours_to_hhmm (cellFloat (rowCell rdf3 r durationHoursCol))))
    let mapped := rekapMappedOf rdf4 emp_col_rekap date_col_rekap
    let merged := addColumn2 odf2 rkpPicCol rkpPicHoursCol (fun r =>
      let res := get_rkp_pic mapped (rowCell odf2 r emp_col_overtime) (rowCell odf2 r date_col_overtime)
      (.str res.1, .float res.2))
    .ok (merged, rdf4)
/-- Count of rows with the given column differing from "00:00" among an
explicit row list. -/
def matchedCountRows (t : Table) (rows : List (List CellValue)) : Nat :=
  (rows.filter (fun r => decide (rowCell t r rkpPicCol ≠ .str ("00:00")))).length
/-- matched_count from src/app.py: rows whose RKP_PIC differs from 00:00. -/
def matchedCount (t : Table) : Nat := matchedCountRows t t.rows
/-- The lower-cased shift values create_summary_table excludes from the
work-day count. -/
def shift_exclusions : List String :=
  [("off"), ("libur"), ("leave"), ("cuti"), ("hari libur"), ("istirahat"), ("kosong"), ("")]
/-- The work-day filter of create_summary_table on one shift cell: not NaN,
the lower-cased (untrimmed) string form is not an excluded token, and the
stripped string form is non-empty. -/
def isWorkedShiftCell (v : CellValue) : Bool :=
  !(isna v) && !(shift_exclusions.contains (pyLower (pyStr v))) && !(pyStrip (pyStr v) == (""))
/-- First-seen-order deduplication (pandas Series.unique). -/
def uniqueCells (l : List CellValue) : List CellValue :=
  l.foldl (fun acc v => if v ∈ acc then acc else acc ++ [v]) []
/-- Rows of the group of one employee (the pandas boolean-mask filter). -/
def groupRows (t : Table) (empCol : String) (employee : CellValue) : List (List CellValue) :=
  t.rows.filter (fun r => decide (rowCell t r empCol = employee))
/-- The work-day count of one group: with a resolved shift column present
in the frame the filtered row count, otherwise the whole group size. -/
def workDaysOf (t : Table) (shiftCol : Option String) (group : List (List CellValue)) : Nat :=
  match shiftCol with
  | some c =>
    if t.headers.contains c then
      (group.filter (fun r => isWorkedShiftCell (rowCell t r c))).length
    else group.length
  | none => group.length
/-- The normal-hours total of one group: the running float sum of
convert_to_hours over the raw per-row values. -/
def wtNormalHoursOf (t : Table) (wtCol : Option String) (group : List (List CellValue)) : ℚ :=
  match wtCol with
  | some c =>
    if t.headers.contains c then
      group.foldl (fun acc r => acc + convert_to_hours (rowCell t r c)) 0
    else 0
  | none => 0
/-- One iteration of the summary's overtime loop: rows whose RKP_PIC
equals 00:00 are skipped, every other row's RKP_PIC display value is
re-parsed by convert_to_hours and accumulated. -/
def rkpStep (t : Table) (acc : ℚ) (r : List CellValue) : ℚ :=
  let rkp := rowCell t r rkpPicCol
  if rkp ≠ .str ("00:00") then acc + convert_to_hours rkp else acc
/-- The overtime total of one group: the running float sum of
convert_to_hours over each row's RKP_PIC display string, skipping rows
whose RKP_PIC equals 00:00. -/
def rkpPicTotalHoursOf (t : Table) (group : List (List CellValue)) : ℚ :=
  group.foldl (rkpStep t) 0
/-- The first non-missing job position of one group, defaulting to N/A. -/
def jobPositionOf (t : Table) (jobCol : Option String) (group : List (List CellValue)) : CellValue :=
  match jobCol with
  | some c =>
    if t.headers.contains c then
      match (group.map (fun r => rowCell t r c)).filter (fun v => !(isna v)) with
      | [] => .str ("N/A")
      | v :: _ => v
    else .str ("N/A")
  | none => .str ("N/A")
/-- The Python str.title method on a character list, tracking whether the
previous character was alphabetic. -/
def pyTitleChars : List Char → Bool → List Char
  | [], _ => []
  | c :: cs, prevAlpha =>
    if c.isAlpha then
      (if prevAlpha then c.toLower else c.toUpper) :: pyTitleChars cs true
    else c :: pyTitleChars cs false
/-- The Python str.title method. -/
def pyTitleStr (s : String) : String := String.mk (pyTitleChars s.data false)
/-- One row of the summary table built by create_summary_table. -/
structure SummaryRow where
  no : Nat
  employeeName : String
  jobPosition : CellValue
  dWork : Nat
  wtNormal : String
  rkpPic : String
deriving DecidableEq, Repr
/-- create_summary_table from src/app.py: resolve the employee, job, shift
and normal-time columns on the merged table, then for every distinct
non-missing employee (first-seen order) emit the title-cased name, first
job position, work-day count and the two formatted hour totals, numbering
the rows from 1. -/
def create_summary_table (t : Table) : List SummaryRow :=
  if t.isEmptyDf then []
  else
    match find_column t empAliases with
    | none => []
    | some empCol =>
      let jobCol := find_column t jobAliases
      let shiftCol := find_column t shiftAliases
      let wtCol := find_column t wtAliases
      let emps := (uniqueCells (colValues t empCol)).filter (fun v => !(isna v))
      let base := emps.map (fun employee =>
        let group := groupRows t empCol employee
        ({ no := 0
           employeeName := pyTitleStr (cellStr employee)
           jobPosition := jobPositionOf t jobCol group
           dWork := workDaysOf t shiftCol group
           wtNormal := hours_to_hhmm (wtNormalHoursOf t wtCol group)
           rkpPic := hours_to_hhmm (rkpPicTotalHoursOf t group) } : SummaryRow))
      base.enum.map (fun p => { p.2 with no := p.1 + 1 })
/-- Modelled from the spec: the full-precision per-row overtime sum of one
group, read from the numeric RKP_PIC_HOURS column (what claim C3 asserts
the summary uses). -/
def specRkpHoursSumOf (t : Table) (group : List (List CellValue)) : ℚ :=
  (group.map (fun r => cellFloat (rowCell t r rkpPicHoursCol))).sum
/-- Modelled from the spec: the work-day predicate as claim C8 words it,
worked iff non-empty and the lower-cased, trimmed value is not a non-work
token. -/
def specWorkedShift (s : String) : Bool :=
  !(s == ("")) && !(shift_exclusions.contains (pyStrip (pyLower s)))
/-! ## Concrete example tables used by witnesses and counterexamples -/
/-- A one-row attendance table with resolvable columns. -/
def attJohn : Table :=
  { headers := [("Name"), ("Date"), ("Shift")]
    rows := [[.str ("John Doe"), .str ("01/03/2024"), .str ("Pagi")]] }
/-- A one-row overtime log matching the attendance row. -/
def rekJohn : Table :=
  { headers := [("Name"), ("Date"), ("Duration")]
    rows := [[.str ("john doe"), .str ("01/03/2024"), .str ("02:30")]] }
/-- The empty table, used as a default when projecting pipeline results. -/
def emptyTable : Table := { headers := [], rows := [] }
/-- The pipeline result on the John Doe tables. -/
def procJohn : Table × Table :=
  (process_overtime_data attJohn rekJohn).toOption.getD (emptyTable, emptyTable)
/-- One concrete overtime entry used by the C2 witness. -/
def entW : RekapEntry :=
  { employee := .str ("a"), date := .str ("2024-03-01")
    duration_hhmm := ("01:00"), duration_hours := 1 }
/-- A second concrete overtime entry with the same key, placed after the
first. -/
def entW2 : RekapEntry :=
  { employee := .str ("a"), date := .str ("2024-03-01")
    duration_hhmm := ("02:00"), duration_hours := 2 }
/-- An attendance table whose only row has an unparseable date. -/
def attBadDate : Table :=
  { headers := [("Name"), ("Date")]
    rows := [[.str ("John"), .str ("banana")]] }
/-- An overtime log whose only row has an unparseable date. -/
def rekBadDate : Table :=
  { headers := [("Name"), ("Date"), ("Duration")]
    rows := [[.str ("john"), .str ("banana"), .float 1]] }
/-- The pipeline result on the bad-date tables. -/
def procBadDate : Table × Table :=
  (process_overtime_data attBadDate rekBadDate).toOption.getD (emptyTable, emptyTable)
/-- An attendance table with employee and date columns but no shift
column. -/
def attNoShift : Table :=
  { headers := [("Employee Name"), ("Date")]
    rows := [[.str ("Ana"), .str ("02/03/2024")]] }
/-- An attendance table with no resolvable employee column. -/
def attNoEmp : Table :=
  { headers := [("Foo"), ("Date")]
    rows := [[.na, .str ("01/03/2024")]] }
/-- A table with a matching header but zero rows. -/
def emptyRowsTable : Table := { headers := [("Employee Name")], rows := [] }
/-- A one-row table whose single header is the spaced spelling. -/
def tblHdrSpace : Table := { headers := [("Employee Name")], rows := [[.na]] }
/-- A one-row table whose single header is the underscore spelling. -/
def tblHdrUnders : Table := { headers := [("employee_name")], rows := [[.na]] }
/-- A one-row table whose single header is the upper-case spelling. -/
def tblHdrUpper : Table := { headers := [("EMPLOYEENAME")], rows := [[.na]] }
/-- A merged-shaped table whose only shift value is the padded string
of the off token. -/
def tShiftPad : Table :=
  { headers := [("name"), ("shift"), rkpPicCol]
    rows := [[.str ("a"), .str (" off "), .str ("00:00")]] }
/-- A one-row attendance table whose employee name carries punctuation. -/
def attMary : Table :=
  { headers := [("Name"), ("Date")]
    rows := [[.str ("MARY-JANE"), .str ("01/03/2024")]] }
/-- An overtime log matching the punctuation-name attendance row. -/
def rekMary : Table :=
  { headers := [("Name"), ("Date"), ("Duration")]
    rows := [[.str ("maryjane"), .str ("01/03/2024"), .float 1]] }
/-- The pipeline result on the punctuation-name tables. -/
def procMary : Table × Table :=
  (process_overtime_data attMary rekMary).toOption.getD (emptyTable, emptyTable)
/-- A one-entry overtime index whose match lasts half a minute. -/
def entSub : RekapEntry :=
  { employee := .str ("a"), date := .str ("2024-03-01")
    duration_hhmm := hours_to_hhmm (1 / 120), duration_hours := 1 / 120 }
/-- A header-only table carrying the RKP_PIC column. -/
def tPic : Table := { headers := [rkpPicCol], rows := [] }
/-- A two-row attendance table for one employee. -/
def attTwo : Table :=
  { headers := [("Name"), ("Date")]
    rows := [[.str ("bob"), .str ("01/03/2024")], [.str ("bob"), .str ("02/03/2024")]] }
/-- An overtime log with a 1:30:30 duration on each of the two dates. -/
def rekTwo : Table :=
  { headers := [("Name"), ("Date"), ("Duration")]
    rows := [[.str ("bob"), .str ("01/03/2024"), .str ("1:30:30")],
             [.str ("bob"), .str ("02/03/2024"), .str ("1:30:30")]] }
/-- The pipeline result on the two-row tables. -/
def procTwo : Table × Table :=
  (process_overtime_data attTwo rekTwo).toOption.getD (emptyTable, emptyTable)
/-! ## Shape lemmas for the pipeline -/
theorem normalize_column_names_rows (df : Table) :
    (normalize_column_names df).rows = df.rows := by
  unfold normalize_column_names
  split <;> rfl
theorem mapColumn_rows_length (df : Table) (c : String) (f : CellValue → CellValue) :
    ((mapColumn df c f).rows).length = df.rows.length := by
  unfold mapColumn
  split <;> simp
theorem addColumn2_rows_length (df : Table) (c1 c2 : String)
    (f : List CellValue → CellValue × CellValue) :
    ((addColumn2 df c1 c2 f).rows).length = df.rows.length := by
  unfold addColumn2
  simp
/-- Claim C1: the merged enriched table produced by an accepted run has
exactly one row per attendance row — the per-row enrichment never drops an
attendance row and never duplicates one, so the output row count equals
the attendance row count. -/
theorem c1_merge_preserves_attendance_rows (o r m rk : Table)
    (h : process_overtime_data o r = .ok (m, rk)) :
    m.rows.length = o.rows.length := by
  simp only [process_overtime_data] at h
  split at h
  · exact absurd h (by simp)
  split at h
  · exact absurd h (by simp)
  split at h
  · exact absurd h (by simp)
  split at h
  · exact absurd h (by simp)
  split at h
  · exact absurd h (by simp)
  simp only [Except.ok.injEq, Prod.mk.injEq] at h
  obtain ⟨hm, _⟩ := h
  subst hm
  simp [addColumn2_rows_length, mapColumn_rows_length, normalize_column_names_rows]
/-- Witness for C1 at the concrete John Doe tables. -/
theorem c1_merge_preserves_attendance_rows_witness :
    procJohn.1.rows.length = attJohn.rows.length :=
  c1_merge_preserves_attendance_rows attJohn rekJohn procJohn.1 procJohn.2
    (by with_unfolding_all rfl)
/-! ## Lookup behavior of get_rkp_pic -/
theorem get_rkp_pic_no_match (mapped : List RekapEntry) (e d : CellValue)
    (he : isna e = false) (hd : isna d = false)
    (h : ∀ ent ∈ mapped, ¬(ent.employee = e ∧ ent.date = d)) :
    get_rkp_pic mapped e d = (("00:00"), 0) := by
  unfold get_rkp_pic
  rw [he, hd]
  have hfind : mapped.find? (fun ent => decide (ent.employee = e ∧ ent.date = d)) = none := by
    rw [List.find?_eq_none]
    intro x hx
    simpa using h x hx
  rw [Bool.or_self, if_neg (by simp), hfind]
theorem get_rkp_pic_first_match (pre post : List RekapEntry) (ent : RekapEntry)
    (e d : CellValue) (he : isna e = false) (hd : isna d = false)
    (hpre : ∀ x ∈ pre, ¬(x.employee = e ∧ x.date = d))
    (hemp : ent.employee = e) (hdate : ent.date = d) :
    get_rkp_pic (pre ++ ent :: post) e d = (ent.duration_hhmm, ent.duration_hours) := by
  unfold get_rkp_pic
  rw [he, hd]
  have hfind : (pre ++ ent :: post).find? (fun x => decide (x.employee = e ∧ x.date = d)) = some ent := by
    induction pre with
    | nil =>
      exact List.find?_cons_of_pos _ (by simp [hemp, hdate])
    | cons a as ih =>
      have ha : ¬(a.employee = e ∧ a.date = d) := hpre a (by simp)
      have ih2 := ih (fun x hx => hpre x (by simp [hx]))
      rw [List.cons_append, List.find?_cons_of_neg _ (by simp [ha])]
      exact ih2
  rw [Bool.or_self, if_neg (by simp), hfind]
/-- Claim C2: with a non-missing key, an attendance row with no overtime
row sharing its (employee, date) key is enriched with 00:00 and zero
hours; a row whose key is carried by some overtime rows takes the
formatted and numeric duration of the first such row in source order (so
in particular a unique match supplies its own parsed duration). -/
theorem c2_first_match_policy (mapped : List RekapEntry) (e d : CellValue)
    (he : isna e = false) (hd : isna d = false) :
    ((∀ ent ∈ mapped, ¬(ent.employee = e ∧ ent.date = d)) →
        get_rkp_pic mapped e d = (("00:00"), 0))
    ∧ (∀ (pre post : List RekapEntry) (ent : RekapEntry),
        mapped = pre ++ ent :: post →
        (∀ x ∈ pre, ¬(x.employee = e ∧ x.date = d)) →
        ent.employee = e → ent.date = d →
        get_rkp_pic mapped e d = (ent.duration_hhmm, ent.duration_hours)) := by
  constructor
  · exact fun h => get_rkp_pic_no_match mapped e d he hd h
  · intro pre post ent hsplit hpre hemp hdate
    subst hsplit
    exact get_rkp_pic_first_match pre post ent e d he hd hpre hemp hdate
/-- Witness for C2: among two duplicate-key entries the first one in
source order supplies the result. -/
theorem c2_first_match_policy_witness :
    get_rkp_pic [entW, entW2] (.str ("a")) (.str ("2024-03-01")) = (("01:00"), 1) :=
  (c2_first_match_policy [entW, entW2] (.str ("a")) (.str ("2024-03-01")) rfl rfl).2
    [] [entW2] entW rfl (by simp) rfl rfl
/-! ## Claim C4: retention of rows with unparseable dates -/
/-- Counterexample to claim C4: with an unparseable date in both files the
batch still succeeds (the overtime failure is not fatal), and the
attendance row is retained in the merged table carrying a missing date —
it is not dropped — and is merely treated as unmatched. -/
theorem c4_counterexample :
    (process_overtime_data attBadDate rekBadDate).isOk = true
    ∧ procBadDate.1.rows.length = 1
    ∧ rowCell procBadDate.1 (procBadDate.1.rows.getD 0 []) ("date") = .na
    ∧ rowCell procBadDate.1 (procBadDate.1.rows.getD 0 []) rkpPicCol = .str ("00:00") := by
  with_unfolding_all decide
/-- Claim C4 (amended): normalization does not drop rows — a date value
failing every parse attempt becomes a missing value, a missing name
normalizes to the empty string, and a row whose date is missing is simply
never matched (its enrichment is 00:00 with zero hours); neither table
fails the batch over date parse failures. -/
theorem c4_amended :
    (∀ v, parse_dd_mm_yyyy v = none → normDateCell v = .na)
    ∧ (∀ (mapped : List RekapEntry) (e : CellValue), get_rkp_pic mapped e .na = (("00:00"), 0))
    ∧ normalize_name .na = ("") := by
  refine ⟨?_, ?_, rfl⟩
  · intro v h
    unfold normDateCell
    rw [h]
  · intro mapped e
    unfold get_rkp_pic
    simp [isna]
/-- Witness for C4 (amended) at a concrete unparseable date. -/
theorem c4_amended_witness :
    normDateCell (.str ("banana")) = .na
    ∧ get_rkp_pic [entW] (.str ("a")) .na = (("00:00"), 0) :=
  ⟨c4_amended.1 (.str ("banana")) (by with_unfolding_all decide),
   c4_amended.2.1 [entW] (.str ("a"))⟩
/-! ## Claim C5: totality of convert_to_hours -/
theorem convert_to_hours_str_error (s : String) (e : PyExn)
    (h : convert_to_hours_str s = .error e) : e = .valueError := by
  unfold convert_to_hours_str at h
  repeat' split at h
  all_goals
    try (injection h with h2; exact h2.symm)
  all_goals cases h
theorem convert_to_hours_body_error (v : CellValue) (e : PyExn)
    (h : convert_to_hours_body v = .error e) : e = .valueError := by
  unfold convert_to_hours_body at h
  cases v
  case int i => exact absurd h (by simp)
  case float q => exact absurd h (by simp)
  case timedelta s => exact absurd h (by simp)
  case timeOfDay a b c => exact absurd h (by simp)
  all_goals exact convert_to_hours_str_error _ _ h
/-- Claim C5: convert_to_hours is total — on every runtime shape it
returns a float without raising (the except clause catches every
exception its body can throw), and a string that carries no day token,
does not match the clock regex and fails the float parse yields exactly
0.0. -/
theorem c5_convert_to_hours_total :
    (∀ v : CellValue, convert_to_hoursE v = .ok (convert_to_hours v))
    ∧ (∀ s : String,
        strContainsSub (pyStrip s) ("day") = false →
        strContainsSub (pyStrip s) ("days") = false →
        timePatternMatch (pyStrip s) = none →
        parsePyFloat (pyStrip s) = none →
        convert_to_hoursE (.str s) = .ok 0) := by
  constructor
  · intro v
    cases hE : convert_to_hoursE v with
    | ok q => simp [convert_to_hours, hE]
    | error e =>
      exfalso
      unfold convert_to_hoursE at hE
      split at hE
      · cases hE
      · split at hE
        · cases hE
        · cases hE
        · cases hE
        · rename_i x e2 hne1 hne2 heq
          exact hne1 (convert_to_hours_body_error v e2 heq)
  · intro s h1 h2 h3 h4
    have hstr : convert_to_hours_str (pyStrip s) = .error .valueError := by
      unfold convert_to_hours_str
      rw [h1, h2, Bool.or_self, if_neg (by simp), h3, h4]
    have hbody : convert_to_hours_body (.str s) = .error .valueError := by
      unfold convert_to_hours_body
      exact hstr
    unfold convert_to_hoursE
    rw [if_neg (by simp [isna]), hbody]
/-- Witness for C5 at a garbage string and a plain numeric value. -/
theorem c5_convert_to_hours_total_witness :
    convert_to_hoursE (.str ("abc")) = .ok 0
    ∧ convert_to_hoursE (.float 2) = .ok (convert_to_hours (.float 2)) :=
  ⟨c5_convert_to_hours_total.2 ("abc") (by with_unfolding_all decide)
      (by with_unfolding_all decide) (by with_unfolding_all decide)
      (by with_unfolding_all decide),
   c5_convert_to_hours_total.1 (.float 2)⟩
/-! ## Claim C6: required columns and the failure behavior -/
/-- Counterexample to claim C6: the Shift field is not required — an
attendance table with no shift column at all is processed successfully,
instead of failing the batch with a missing-column error naming Shift. -/
theorem c6_counterexample :
    find_column (normalize_column_names attNoShift) shiftAliases = none
    ∧ (process_overtime_data attNoShift rekJohn).isOk = true := by
  with_unfolding_all decide
/-- Claim C6 (amended): the batch fails iff one of the five required
lookups fails — EmployeeName and Date on both tables and Duration on the
overtime log (Shift is not required) — and the failure is an error message
naming the missing field and file (carrying neither a typed field name nor
the list of available headers); no merged result is produced. -/
theorem c6_amended (o r : Table) :
    ((process_overtime_data o r).isOk = true ↔
      ((find_column (normalize_column_names o) empAliases).isSome = true
        ∧ (find_column (normalize_column_names r) empAliases).isSome = true
        ∧ (find_column (normalize_column_names o) dateAliases).isSome = true
        ∧ (find_column (normalize_column_names r) dateAliases).isSome = true
        ∧ (find_column (normalize_column_names r) durAliases).isSome = true))
    ∧ (find_column (normalize_column_names o) empAliases = none →
        process_overtime_data o r = .error msgEmpOvertime)
    ∧ ((find_column (normalize_column_names o) empAliases).isSome = true →
        find_column (normalize_column_names r) empAliases = none →
        process_overtime_data o r = .error msgEmpRekap)
    ∧ ((find_column (normalize_column_names o) empAliases).isSome = true →
        (find_column (normalize_column_names r) empAliases).isSome = true →
        find_column (normalize_column_names o) dateAliases = none →
        process_overtime_data o r = .error msgDateOvertime)
    ∧ ((find_column (normalize_column_names o) empAliases).isSome = true →
        (find_column (normalize_column_names r) empAliases).isSome = true →
        (find_column (normalize_column_names o) dateAliases).isSome = true →
        find_column (normalize_column_names r) dateAliases = none →
        process_overtime_data o r = .error msgDateRekap)
    ∧ ((find_column (normalize_column_names o) empAliases).isSome = true →
        (find_column (normalize_column_names r) empAliases).isSome = true →
        (find_column (normalize_column_names o) dateAliases).isSome = true →
        (find_column (normalize_column_names r) dateAliases).isSome = true →
        find_column (normalize_column_names r) durAliases = none →
        process_overtime_data o r = .error msgDuration) := by
  refine ⟨?_, ?_, ?_, ?_, ?_, ?_⟩
  · cases h1 : find_column (normalize_column_names o) empAliases with
    | none => simp [process_overtime_data, h1, Except.isOk, Except.toBool]
    | some a =>
      cases h2 : find_column (normalize_column_names r) empAliases with
      | none => simp [process_overtime_data, h1, h2, Except.isOk, Except.toBool]
      | some b =>
        cases h3 : find_column (normalize_column_names o) dateAliases with
        | none => simp [process_overtime_data, h1, h2, h3, Except.isOk, Except.toBool]
        | some c =>
          cases h4 : find_column (normalize_column_names r) dateAliases with
          | none => simp [process_overtime_data, h1, h2, h3, h4, Except.isOk, Except.toBool]
          | some d =>
            cases h5 : find_column (normalize_column_names r) durAliases with
            | none => simp [process_overtime_data, h1, h2, h3, h4, h5, Except.isOk, Except.toBool]
            | some e => simp [process_overtime_data, h1, h2, h3, h4, h5, Except.isOk, Except.toBool]
  · intro h1
    simp [process_overtime_data, h1]
  · intro h1 h2
    obtain ⟨a, ha⟩ := Option.isSome_iff_exists.mp h1
    simp [process_overtime_data, ha, h2]
  · intro h1 h2 h3
    obtain ⟨a, ha⟩ := Option.isSome_iff_exists.mp h1
    obtain ⟨b, hb⟩ := Option.isSome_iff_exists.mp h2
    simp [process_overtime_data, ha, hb, h3]
  · intro h1 h2 h3 h4
    obtain ⟨a, ha⟩ := Option.isSome_iff_exists.mp h1
    obtain ⟨b, hb⟩ := Option.isSome_iff_exists.mp h2
    obtain ⟨c, hc⟩ := Option.isSome_iff_exists.mp h3
    simp [process_overtime_data, ha, hb, hc, h4]
  · intro h1 h2 h3 h4 h5
    obtain ⟨a, ha⟩ := Option.isSome_iff_exists.mp h1
    obtain ⟨b, hb⟩ := Option.isSome_iff_exists.mp h2
    obtain ⟨c, hc⟩ := Option.isSome_iff_exists.mp h3
    obtain ⟨d, hd⟩ := Option.isSome_iff_exists.mp h4
    simp [process_overtime_data, ha, hb, hc, hd, h5]
/-- Witness for C6 (amended): a concrete missing employee column yields
the corresponding error, and with all five columns present the run
succeeds. -/
theorem c6_amended_witness :
    process_overtime_data attNoEmp rekJohn = .error msgEmpOvertime
    ∧ (process_overtime_data attJohn rekJohn).isOk = true :=
  ⟨(c6_amended attNoEmp rekJohn).2.1 (by with_unfolding_all decide),
   (c6_amended attJohn rekJohn).1.mpr
     ⟨by with_unfolding_all decide, by with_unfolding_all decide,
      by with_unfolding_all decide, by with_unfolding_all decide,
      by with_unfolding_all decide⟩⟩
/-! ## Claim C7: column resolution -/
theorem find?_eq_some_first {α : Type _} (p : α → Bool) (l : List α) (a : α) :
    l.find? p = some a ↔
      ∃ i : Nat, l[i]? = some a ∧ p a = true ∧
        ∀ j : Nat, j < i → ∀ b, l[j]? = some b → p b = false := by
  induction l with
  | nil => simp
  | cons x xs ih =>
    rw [List.find?_cons]
    cases hpx : p x
    · constructor
      · intro h
        obtain ⟨i, hi, hpa, hmin⟩ := ih.mp h
        refine ⟨i + 1, by simpa using hi, hpa, ?_⟩
        intro j hj b hb
        cases j with
        | zero =>
          simp only [List.getElem?_cons_zero, Option.some.injEq] at hb
          subst hb
          exact hpx
        | succ k =>
          exact hmin k (by omega) b (by simpa using hb)
      · rintro ⟨i, hi, hpa, hmin⟩
        cases i with
        | zero =>
          simp only [List.getElem?_cons_zero, Option.some.injEq] at hi
          subst hi
          rw [hpa] at hpx
          cases hpx
        | succ k =>
          refine ih.mpr ⟨k, by simpa using hi, hpa, ?_⟩
          intro j hj b hb
          exact hmin (j + 1) (by omega) b (by simpa using hb)
    · constructor
      · intro h
        injection h with h2
        subst h2
        exact ⟨0, by simp, hpx, fun j hj b hb => absurd hj (by omega)⟩
      · rintro ⟨i, hi, hpa, hmin⟩
        cases i with
        | zero =>
          simp only [List.getElem?_cons_zero, Option.some.injEq] at hi
          subst hi
          rfl
        | succ k =>
          have h0 := hmin 0 (by omega) x (by simp)
          rw [h0] at hpx
          cases hpx
    
/-- Claim C7 (amended): for a table that is not empty (at least one row
and one header), find_column returns exactly the first column in header
order whose normalized form (lower-cased, non-alphanumerics removed)
equals a normalized alias, matching exactly rather than by substring; an
empty table — including one with matching headers but zero rows — always
resolves to not-found. -/
theorem c7_amended (df : Table) (names : List String) (c : String)
    (hne : df.isEmptyDf = false) :
    find_column df names = some c ↔
      ∃ i : Nat, ∃ hname : String,
        df.headers[i]? = some hname ∧ normCol hname = c
        ∧ (names.map normCol).contains c = true
        ∧ ∀ j : Nat, j < i → ∀ b : String, df.headers[j]? = some b →
            (names.map normCol).contains (normCol b) = false := by
  have hfc : find_column df names =
      (df.headers.map normCol).find? (fun x => (names.map normCol).contains x) := by
    simp [find_column, normalize_column_names, hne]
  rw [hfc, find?_eq_some_first]
  constructor
  · rintro ⟨i, hi, hpa, hmin⟩
    rw [List.getElem?_map] at hi
    obtain ⟨hname, hh, hnc⟩ := Option.map_eq_some'.mp hi
    refine ⟨i, hname, hh, hnc, hpa, ?_⟩
    intro j hj b hb
    exact hmin j hj (normCol b) (by rw [List.getElem?_map, hb]; rfl)
  · rintro ⟨i, hname, hh, hnc, hcon, hmin⟩
    refine ⟨i, by rw [List.getElem?_map, hh, Option.map_some', hnc], hcon, ?_⟩
    intro j hj b hb
    rw [List.getElem?_map] at hb
    obtain ⟨b0, hb0, hb1⟩ := Option.map_eq_some'.mp hb
    subst hb1
    exact hmin j hj b0 hb0
/-- Counterexample to claim C7: on a table with zero rows, find_column
returns not-found even though a header normalizes to an alias of the
EmployeeName field, contradicting the claimed first-match contract. -/
theorem c7_counterexample :
    find_column emptyRowsTable empAliases = none
    ∧ normCol ("Employee Name") = ("employeename")
    ∧ (empAliases.map normCol).contains ("employeename") = true := by
  with_unfolding_all decide
/-- Witness for C7 (amended): the three spellings of the employee header
all resolve to the EmployeeName field on non-empty tables. -/
theorem c7_amended_witness :
    find_column tblHdrSpace empAliases = some ("employeename")
    ∧ find_column tblHdrUnders empAliases = some ("employeename")
    ∧ find_column tblHdrUpper empAliases = some ("employeename") :=
  ⟨(c7_amended tblHdrSpace empAliases ("employeename") (by with_unfolding_all decide)).mpr
     ⟨0, ("Employee Name"), by with_unfolding_all decide, by with_unfolding_all decide,
      by with_unfolding_all decide, fun j hj b hb => absurd hj (by omega)⟩,
   (c7_amended tblHdrUnders empAliases ("employeename") (by with_unfolding_all decide)).mpr
     ⟨0, ("employee_name"), by with_unfolding_all decide, by with_unfolding_all decide,
      by with_unfolding_all decide, fun j hj b hb => absurd hj (by omega)⟩,
   (c7_amended tblHdrUpper empAliases ("employeename") (by with_unfolding_all decide)).mpr
     ⟨0, ("EMPLOYEENAME"), by with_unfolding_all decide, by with_unfolding_all decide,
      by with_unfolding_all decide, fun j hj b hb => absurd hj (by omega)⟩⟩
/-! ## Claim C8: work-day classification -/
/-- Counterexample to claim C8: the exclusion comparison lower-cases but
does not trim, so a shift value equal to an excluded token only after
trimming still counts as a worked day — the code counts it (summary
work-day count 1) while the claimed lower-case-and-trim rule rejects
it. -/
theorem c8_counterexample :
    isWorkedShiftCell (.str (" off ")) = true
    ∧ specWorkedShift (" off ") = false
    ∧ (create_summary_table tShiftPad).map (fun r => r.dWork) = [1] := by
  with_unfolding_all decide
/-- Claim C8 (amended): a shift value counts as a worked day iff its
lower-cased (untrimmed) form is not an excluded token and its stripped
form is non-empty; with no shift column resolved — or one resolving
outside the frame — every row of the group counts; and the five-shift
example sequence yields three worked days. -/
theorem c8_amended :
    (∀ s : String, isWorkedShiftCell (.str s) = true ↔
        (shift_exclusions.contains (pyLower s) = false ∧ pyStrip s ≠ ("")))
    ∧ (∀ (t : Table) (group : List (List CellValue)), workDaysOf t none group = group.length)
    ∧ (∀ (t : Table) (c : String) (group : List (List CellValue)),
        t.headers.contains c = false → workDaysOf t (some c) group = group.length)
    ∧ ((([("Pagi"), ("Off"), ("Siang"), ("Libur"), ("Malam")].map
          (fun s => CellValue.str s)).filter isWorkedShiftCell).length = 3) := by
  refine ⟨?_, ?_, ?_, by with_unfolding_all decide⟩
  · intro s
    simp [isWorkedShiftCell, isna, pyStr]
  · intro t group
    rfl
  · intro t c group h
    simp only [workDaysOf, h, Bool.false_eq_true, if_false]
/-- Witness for C8 (amended) at concrete shift values. -/
theorem c8_amended_witness :
    workDaysOf emptyTable (some ("zzz")) [[CellValue.na]] = 1
    ∧ isWorkedShiftCell (.str ("Pagi")) = true :=
  ⟨c8_amended.2.2.1 emptyTable ("zzz") [[CellValue.na]] (by with_unfolding_all decide),
   (c8_amended.1 ("Pagi")).mpr
     ⟨by with_unfolding_all decide, by with_unfolding_all decide⟩⟩
/-! ## Claim C9: display names in the summary -/
theorem getD_set_self {α : Type _} (l : List α) (i : Nat) (a d : α) (h : i < l.length) :
    (l.set i a).getD i d = a := by
  induction l generalizing i with
  | nil => simp at h
  | cons x xs ih =>
    cases i with
    | zero => rfl
    | succ k => exact ih k (by simpa using h)
theorem enumFrom_update_name : ∀ (n : Nat) (l : List SummaryRow),
    ((List.enumFrom n l).map (fun p => ({ p.2 with no := p.1 + 1 } : SummaryRow))).map
        (fun r => r.employeeName)
      = l.map (fun r => r.employeeName) := by
  intro n l
  induction l generalizing n with
  | nil => rfl
  | cons x xs ih => simp [List.enumFrom, ih (n + 1)]
theorem enum_update_name (l : List SummaryRow) :
    ((l.enum).map (fun p => ({ p.2 with no := p.1 + 1 } : SummaryRow))).map
        (fun r => r.employeeName)
      = l.map (fun r => r.employeeName) :=
  enumFrom_update_name 0 l
/-- Claim C9 (amended): the employee cells of the pipeline are overwritten
in place by the normalized join key, and the summary's Employee Name is
the title-cased normalized key (not the original raw value): the summary
name list is exactly the title-cased deduplicated employee-column values
of the merged table. -/
theorem c9_amended :
    (∀ (t : Table) (empCol : String), t.isEmptyDf = false →
      find_column t empAliases = some empCol →
      (create_summary_table t).map (fun r => r.employeeName) =
        ((uniqueCells (colValues t empCol)).filter (fun v => !(isna v))).map
          (fun v => pyTitleStr (cellStr v)))
    ∧ (∀ (df : Table) (c : String) (i : Nat),
        df.headers.findIdx? (fun h => h == c) = some i →
        (∀ row ∈ df.rows, i < row.length) →
        colValues (mapColumn df c (fun v => .str (normalize_name v))) c =
          (colValues df c).map (fun v => .str (normalize_name v))) := by
  constructor
  · intro t empCol hne hfind
    simp only [create_summary_table, hne, Bool.false_eq_true, if_false, hfind]
    rw [enum_update_name, List.map_map]
    rfl
  · intro df c i hidx hlen
    unfold colValues mapColumn
    rw [hidx]
    simp only [List.map_map]
    apply List.map_congr_left
    intro r hr
    unfold rowCell
    simp only [hidx, Function.comp]
    exact getD_set_self r i _ _ (hlen r hr)
/-- Counterexample to claim C9: the original un-normalized name is not
retained — the summary shows the title-cased normalized key, which
differs from the title-cased original whenever normalization stripped a
character. -/
theorem c9_counterexample :
    (create_summary_table procMary.1).map (fun r => r.employeeName) = [("Maryjane")]
    ∧ pyTitleStr ("MARY-JANE") = ("Mary-Jane")
    ∧ (("Maryjane") : String) ≠ ("Mary-Jane") := by
  with_unfolding_all decide
/-- Witness for C9 (amended) at concrete tables. -/
theorem c9_amended_witness :
    (create_summary_table tShiftPad).map (fun r => r.employeeName) =
      ((uniqueCells (colValues tShiftPad ("name"))).filter (fun v => !(isna v))).map
        (fun v => pyTitleStr (cellStr v))
    ∧ colValues (mapColumn attJohn ("Name") (fun v => .str (normalize_name v))) ("Name") =
        (colValues attJohn ("Name")).map (fun v => .str (normalize_name v)) :=
  ⟨c9_amended.1 tShiftPad ("name") (by with_unfolding_all decide) (by with_unfolding_all decide),
   c9_amended.2 attJohn ("Name") 0 (by with_unfolding_all decide)
     (by intro row hrow; fin_cases hrow; simp)⟩
/-! ## Claim C10: sub-minute matches -/
theorem hours_to_hhmm_small (q : ℚ) (h0 : 0 ≤ q) (h1 : q < 1 / 60) :
    hours_to_hhmm q = ("00:00") := by
  by_cases hz : q = 0
  · subst hz
    rfl
  · unfold hours_to_hhmm
    rw [if_neg hz]
    have htm : pyTruncInt (q * 60) = 0 := by
      unfold pyTruncInt
      rw [if_pos (by positivity)]
      rw [Int.floor_eq_zero_iff]
      constructor
      · positivity
      · linarith
    rw [htm]
    with_unfolding_all decide
/-- Claim C10: an attendance row whose first-match overtime duration is
below one minute (zero included) is presented as unmatched — its RKP_PIC
is 00:00 (the per-row duration string is formatted from the hours, as the
pipeline does), a 00:00 row is excluded from the matched-record count, and
it contributes nothing to the summary's overtime total. -/
theorem c10_subminute_match_reported_unmatched
    (mapped : List RekapEntry) (e d : CellValue) (pre post : List RekapEntry)
    (ent : RekapEntry)
    (he : isna e = false) (hd : isna d = false)
    (hsplit : mapped = pre ++ ent :: post)
    (hpre : ∀ x ∈ pre, ¬(x.employee = e ∧ x.date = d))
    (hemp : ent.employee = e) (hdate : ent.date = d)
    (hflow : ent.duration_hhmm = hours_to_hhmm ent.duration_hours)
    (h0 : 0 ≤ ent.duration_hours) (h1 : ent.duration_hours < 1 / 60) :
    (get_rkp_pic mapped e d).1 = ("00:00")
    ∧ (∀ (t : Table) (rs1 rs2 : List (List CellValue)) (row : List CellValue),
        rowCell t row rkpPicCol = .str ("00:00") →
        matchedCountRows t (rs1 ++ row :: rs2) = matchedCountRows t (rs1 ++ rs2))
    ∧ (∀ (t : Table) (g1 g2 : List (List CellValue)) (row : List CellValue),
        rowCell t row rkpPicCol = .str ("00:00") →
        rkpPicTotalHoursOf t (g1 ++ row :: g2) = rkpPicTotalHoursOf t (g1 ++ g2)) := by
  refine ⟨?_, ?_, ?_⟩
  · subst hsplit
    rw [get_rkp_pic_first_match pre post ent e d he hd hpre hemp hdate]
    rw [hflow, hours_to_hhmm_small _ h0 h1]
  · intro t rs1 rs2 row hrow
    unfold matchedCountRows
    rw [List.filter_append, List.filter_append, List.filter_cons]
    rw [hrow]
    simp
  · intro t g1 g2 row hrow
    unfold rkpPicTotalHoursOf
    rw [List.foldl_append, List.foldl_append, List.foldl_cons]
    congr 1
    simp [rkpStep, hrow]
/-- Witness for C10 at a concrete half-minute match. -/
theorem c10_subminute_match_reported_unmatched_witness :
    (get_rkp_pic [entSub] (.str ("a")) (.str ("2024-03-01"))).1 = ("00:00")
    ∧ matchedCountRows tPic ([] ++ [CellValue.str ("00:00")] :: []) =
        matchedCountRows tPic ([] ++ [])
    ∧ rkpPicTotalHoursOf tPic ([] ++ [CellValue.str ("00:00")] :: []) =
        rkpPicTotalHoursOf tPic ([] ++ []) := by
  have H := c10_subminute_match_reported_unmatched [entSub] (.str ("a")) (.str ("2024-03-01"))
    [] [] entSub rfl rfl rfl (by simp) rfl rfl rfl
    (by with_unfolding_all decide) (by with_unfolding_all decide)
  exact ⟨H.1,
    H.2.1 tPic [] [] [CellValue.str ("00:00")] (by with_unfolding_all decide),
    H.2.2 tPic [] [] [CellValue.str ("00:00")] (by with_unfolding_all decide)⟩
/-! ## Decimal rendering and reparsing (for claim C3) -/
theorem digitChar_facts : ∀ d : Nat, d < 10 →
    ((Char.ofNat (48 + d)).isDigit = true
      ∧ (Char.ofNat (48 + d)).toNat = 48 + d
      ∧ (Char.ofNat (48 + d)).isWhitespace = false
      ∧ Char.ofNat (48 + d) ≠ 'd') := by
  decide
theorem natDigitsAux_acc : ∀ (fuel n : Nat) (acc : List Char),
    natDigitsAux fuel n acc = natDigitsAux fuel n [] ++ acc := by
  intro fuel
  induction fuel with
  | zero =>
    intro n acc
    rfl
  | succ f ih =>
    intro n acc
    by_cases h : n < 10
    · simp [natDigitsAux, h]
    · simp only [natDigitsAux, h, if_false]
      rw [ih (n / 10) (Char.ofNat (48 + n % 10) :: acc), ih (n / 10) [Char.ofNat (48 + n % 10)]]
      simp
theorem natDigitsAux_fuel : ∀ (fuel fuel2 n : Nat) (acc : List Char),
    n ≤ fuel → n ≤ fuel2 → natDigitsAux fuel n acc = natDigitsAux fuel2 n acc := by
  intro fuel
  induction fuel with
  | zero =>
    intro fuel2 n acc h1 h2
    have hn : n = 0 := by omega
    subst hn
    cases fuel2 with
    | zero => rfl
    | succ g => simp [natDigitsAux]
  | succ f ih =>
    intro fuel2 n acc h1 h2
    cases fuel2 with
    | zero =>
      have hn : n = 0 := by omega
      subst hn
      simp [natDigitsAux]
    | succ g =>
      by_cases h : n < 10
      · simp [natDigitsAux, h]
      · simp only [natDigitsAux, h, if_false]
        have hdlt : n / 10 < n := Nat.div_lt_self (by omega) (by omega)
        exact ih g (n / 10) _ (by omega) (by omega)
theorem natDigits_eq (n : Nat) :
    natDigits n =
      if n < 10 then [Char.ofNat (48 + n)]
      else natDigits (n / 10) ++ [Char.ofNat (48 + n % 10)] := by
  by_cases h : n < 10
  · rw [if_pos h]
    unfold natDigits
    cases n with
    | zero => rfl
    | succ k => simp [natDigitsAux, h]
  · rw [if_neg h]
    unfold natDigits
    cases n with
    | zero => omega
    | succ k =>
      simp only [natDigitsAux, h, if_false]
      rw [natDigitsAux_acc]
      congr 1
      have hdlt : (k + 1) / 10 < k + 1 := Nat.div_lt_self (by omega) (by omega)
      exact natDigitsAux_fuel k ((k + 1) / 10) ((k + 1) / 10) [] (by omega) (le_refl _)
theorem natDigits_shape (n : Nat) :
    ∀ c ∈ natDigits n, ∃ d, d < 10 ∧ c = Char.ofNat (48 + d) := by
  induction n using Nat.strong_induction_on with
  | _ n ih =>
    rw [natDigits_eq n]
    by_cases h : n < 10
    · rw [if_pos h]
      intro c hc
      simp only [List.mem_singleton] at hc
      exact ⟨n, h, hc⟩
    · rw [if_neg h]
      intro c hc
      rw [List.mem_append] at hc
      rcases hc with hc | hc
      · exact ih (n / 10) (Nat.div_lt_self (by omega) (by omega)) c hc
      · simp only [List.mem_singleton] at hc
        exact ⟨n % 10, Nat.mod_lt n (by omega), hc⟩
theorem natDigits_ne_nil (n : Nat) : natDigits n ≠ [] := by
  rw [natDigits_eq n]
  by_cases h : n < 10
  · simp [h]
  · simp [h]
theorem digitsToNat_append_one (xs : List Char) (c : Char) :
    digitsToNat (xs ++ [c]) = 10 * digitsToNat xs + (c.toNat - 48) := by
  unfold digitsToNat
  rw [List.foldl_append]
  rfl
theorem digitsToNat_natDigits (n : Nat) : digitsToNat (natDigits n) = n := by
  induction n using Nat.strong_induction_on with
  | _ n ih =>
    rw [natDigits_eq n]
    by_cases h : n < 10
    · rw [if_pos h]
      show digitsToNat ([] ++ [Char.ofNat (48 + n)]) = n
      rw [digitsToNat_append_one, (digitChar_facts n h).2.1]
      show 10 * digitsToNat [] + (48 + n - 48) = n
      unfold digitsToNat
      simp
    · rw [if_neg h, digitsToNat_append_one,
        ih (n / 10) (Nat.div_lt_self (by omega) (by omega)),
        (digitChar_facts (n % 10) (Nat.mod_lt n (by omega))).2.1]
      omega
theorem takeDigits_append_digits (ds rest : List Char)
    (hds : ∀ c ∈ ds, c.isDigit = true)
    (hrest : ∀ c, rest.head? = some c → c.isDigit = false) :
    takeDigits (ds ++ rest) = (ds, rest) := by
  induction ds with
  | nil =>
    cases rest with
    | nil => rfl
    | cons c cs =>
      simp only [List.nil_append, takeDigits]
      rw [hrest c (by rfl)]
      simp
  | cons d ds2 ih =>
    simp only [List.cons_append, takeDigits, List.append_eq]
    rw [hds d (by simp)]
    rw [ih (fun c hc => hds c (by simp [hc]))]
    simp
theorem digitsToNat_replicate_zero : ∀ (k : Nat) (ds : List Char),
    digitsToNat (List.replicate k '0' ++ ds) = digitsToNat ds := by
  intro k
  induction k with
  | zero => intro ds; rfl
  | succ j ih =>
    intro ds
    show digitsToNat ('0' :: (List.replicate j '0' ++ ds)) = digitsToNat ds
    unfold digitsToNat
    rw [List.foldl_cons]
    exact ih ds
theorem parseNatPrefix_padded (k n : Nat) (rest : List Char)
    (hrest : ∀ c, rest.head? = some c → c.isDigit = false) :
    parseNatPrefix ((List.replicate k '0' ++ natDigits n) ++ rest) = some (n, rest) := by
  unfold parseNatPrefix
  have hds : ∀ c ∈ List.replicate k '0' ++ natDigits n, c.isDigit = true := by
    intro c hc
    rw [List.mem_append] at hc
    rcases hc with hc | hc
    · rw [List.eq_of_mem_replicate hc]
      decide
    · obtain ⟨d, hd, hcd⟩ := natDigits_shape n c hc
      subst hcd
      exact (digitChar_facts d hd).1
  rw [takeDigits_append_digits _ _ hds hrest]
  have hne : (List.replicate k '0' ++ natDigits n).isEmpty = false := by
    cases h : List.replicate k '0' ++ natDigits n with
    | nil =>
      exact absurd (List.append_eq_nil.mp h).2 (natDigits_ne_nil n)
    | cons x xs => rfl
  simp only [hne, Bool.false_eq_true, if_false]
  rw [digitsToNat_replicate_zero, digitsToNat_natDigits]
theorem intRepr_nonneg (i : Int) (h : 0 ≤ i) : intRepr i = natRepr i.toNat := by
  unfold intRepr
  rw [if_neg (by omega)]
  congr 1
  omega
theorem pad2_data (i : Int) (h : 0 ≤ i) :
    ∃ k, (pad2 i).data = List.replicate k '0' ++ natDigits i.toNat := by
  simp only [pad2, intRepr_nonneg i h]
  by_cases hl : (natRepr i.toNat).length < 2
  · refine ⟨2 - (natRepr i.toNat).length, ?_⟩
    rw [if_pos hl]
    rfl
  · refine ⟨0, ?_⟩
    rw [if_neg hl]
    rfl
theorem strContainsSub_head_false (s pat : String) (c0 : Char) (cs : List Char)
    (hp : pat.data = c0 :: cs) (hc : c0 ∉ s.data) : strContainsSub s pat = false := by
  unfold strContainsSub
  rw [hp, List.any_eq_false]
  intro t ht
  rw [List.mem_tails] at ht
  cases t with
  | nil => simp [List.isPrefixOf]
  | cons x ts =>
    have hx : x ∈ s.data := ht.subset (by simp)
    have hne : ¬((c0 == x) = true) := by
      simp only [beq_iff_eq]
      intro h2
      exact hc (h2 ▸ hx)
    simp [List.isPrefixOf, hne]
theorem pyStrip_eq_self (s : String) (h : ∀ c ∈ s.data, c.isWhitespace = false) :
    pyStrip s = s := by
  unfold pyStrip
  have h1 : s.data.dropWhile Char.isWhitespace = s.data := by
    cases hd : s.data with
    | nil => rfl
    | cons c cs =>
      rw [List.dropWhile_cons, h c (by rw [hd]; simp)]
      simp
  rw [h1]
  have h2 : s.data.reverse.dropWhile Char.isWhitespace = s.data.reverse := by
    cases hd : s.data.reverse with
    | nil => rfl
    | cons c cs =>
      have hcmem : c ∈ s.data := by
        rw [← List.mem_reverse, hd]
        simp
      rw [List.dropWhile_cons, h c hcmem]
      simp
  rw [h2, List.reverse_reverse]
theorem hhmm_chars (hI mI : Int) (hh : 0 ≤ hI) (hm : 0 ≤ mI) :
    ∀ c ∈ (pad2 hI ++ (":") ++ pad2 mI).data, c.isWhitespace = false ∧ c ≠ 'd' := by
  obtain ⟨k1, hk1⟩ := pad2_data hI hh
  obtain ⟨k2, hk2⟩ := pad2_data mI hm
  have hpart : ∀ (k n : Nat), ∀ x ∈ List.replicate k '0' ++ natDigits n,
      x.isWhitespace = false ∧ x ≠ 'd' := by
    intro k n x hx
    rw [List.mem_append] at hx
    rcases hx with hx | hx
    · rw [List.eq_of_mem_replicate hx]
      exact ⟨by decide, by decide⟩
    · obtain ⟨d, hd, hxd⟩ := natDigits_shape n x hx
      subst hxd
      exact ⟨(digitChar_facts d hd).2.2.1, (digitChar_facts d hd).2.2.2⟩
  intro c hc
  rw [String.data_append, String.data_append, hk1, hk2] at hc
  rw [List.mem_append, List.mem_append] at hc
  rcases hc with (hc | hc) | hc
  · exact hpart k1 hI.toNat c hc
  · have : c = ':' := by simpa using hc
    subst this
    exact ⟨by decide, by decide⟩
  · exact hpart k2 mI.toNat c hc
theorem timePattern_hhmm (hI mI : Int) (hh : 0 ≤ hI) (hm : 0 ≤ mI) :
    timePatternMatch (pad2 hI ++ (":") ++ pad2 mI) = some (hI.toNat, mI.toNat, 0) := by
  obtain ⟨k1, hk1⟩ := pad2_data hI hh
  obtain ⟨k2, hk2⟩ := pad2_data mI hm
  have hdata : (pad2 hI ++ (":") ++ pad2 mI).data =
      (List.replicate k1 '0' ++ natDigits hI.toNat) ++
        (':' :: (List.replicate k2 '0' ++ natDigits mI.toNat)) := by
    rw [String.data_append, String.data_append, hk1, hk2]
    simp
  have hp1 : parseNatPrefix ((List.replicate k1 '0' ++ natDigits hI.toNat) ++
      (':' :: (List.replicate k2 '0' ++ natDigits mI.toNat))) =
      some (hI.toNat, ':' :: (List.replicate k2 '0' ++ natDigits mI.toNat)) :=
    parseNatPrefix_padded k1 hI.toNat _ (by
      intro c hc
      rw [List.head?_cons] at hc
      injection hc with hc2
      subst hc2
      decide)
  have hp2 : parseNatPrefix (List.replicate k2 '0' ++ natDigits mI.toNat) =
      some (mI.toNat, []) := by
    have h3 := parseNatPrefix_padded k2 mI.toNat [] (by intro c hc; simp at hc)
    simpa using h3
  unfold timePatternMatch
  rw [hdata, hp1]
  simp [hp2]
theorem convert_str_clock (S : String) (h m : Nat)
    (hday : strContainsSub S ("day") = false)
    (hdays : strContainsSub S ("days") = false)
    (hmatch : timePatternMatch S = some (h, m, 0)) :
    convert_to_hours_str S = .ok ((h : ℚ) + (m : ℚ) / 60) := by
  unfold convert_to_hours_str
  rw [hday, hdays, Bool.or_self, if_neg (by simp), hmatch]
  norm_num
theorem convert_to_hours_of_hhmm (q : ℚ) (hq : 0 ≤ q) :
    convert_to_hours (.str (hours_to_hhmm q)) = ((⌊q * 60⌋ : ℤ) : ℚ) / 60 := by
  by_cases hz : q = 0
  · subst hz
    with_unfolding_all decide
  · unfold hours_to_hhmm
    rw [if_neg hz]
    have htm : pyTruncInt (q * 60) = ⌊q * 60⌋ := by
      unfold pyTruncInt
      rw [if_pos (by positivity)]
    rw [htm]
    have htm0 : (0 : ℤ) ≤ ⌊q * 60⌋ := Int.floor_nonneg.mpr (by positivity)
    set hI : Int := Int.fdiv ⌊q * 60⌋ 60 with hHdef
    set mI : Int := Int.emod ⌊q * 60⌋ 60 with hMdef
    have hh : 0 ≤ hI := Int.fdiv_nonneg htm0 (by omega)
    have hm : 0 ≤ mI := Int.emod_nonneg _ (by omega)
    have hchars := hhmm_chars hI mI hh hm
    have hstrip : pyStrip (pad2 hI ++ (":") ++ pad2 mI) = pad2 hI ++ (":") ++ pad2 mI :=
      pyStrip_eq_self _ (fun c hc => (hchars c hc).1)
    have hday : strContainsSub (pad2 hI ++ (":") ++ pad2 mI) ("day") = false :=
      strContainsSub_head_false _ _ 'd' ['a', 'y'] rfl (fun hmem => (hchars 'd' hmem).2 rfl)
    have hdays : strContainsSub (pad2 hI ++ (":") ++ pad2 mI) ("days") = false :=
      strContainsSub_head_false _ _ 'd' ['a', 'y', 's'] rfl (fun hmem => (hchars 'd' hmem).2 rfl)
    have hpat := timePattern_hhmm hI mI hh hm
    have hE : convert_to_hoursE (.str (pad2 hI ++ (":") ++ pad2 mI)) =
        .ok ((hI.toNat : ℚ) + (mI.toNat : ℚ) / 60) := by
      have hbody : convert_to_hours_body (.str (pad2 hI ++ (":") ++ pad2 mI)) =
          .ok ((hI.toNat : ℚ) + (mI.toNat : ℚ) / 60) := by
        have hb0 : convert_to_hours_body (.str (pad2 hI ++ (":") ++ pad2 mI)) =
            convert_to_hours_str (pyStrip (pad2 hI ++ (":") ++ pad2 mI)) := rfl
        rw [hb0, hstrip]
        exact convert_str_clock _ _ _ hday hdays hpat
      unfold convert_to_hoursE
      rw [if_neg (by simp [isna]), hbody]
    have hconv : convert_to_hours (.str (pad2 hI ++ (":") ++ pad2 mI)) =
        (hI.toNat : ℚ) + (mI.toNat : ℚ) / 60 := by
      unfold convert_to_hours
      rw [hE]
    rw [hconv]
    have hfd : hI = ⌊q * 60⌋ / 60 := by
      rw [hHdef, Int.fdiv_eq_ediv] ; omega
    have hdiv : ⌊q * 60⌋ = 60 * hI + mI := by
      rw [hfd, hMdef]
      rw [show Int.emod ⌊q * 60⌋ 60 = ⌊q * 60⌋ % 60 from rfl]
      omega
    have hcast : ((⌊q * 60⌋ : ℤ) : ℚ) = 60 * (hI.toNat : ℚ) + (mI.toNat : ℚ) := by
      have hz2 : (60 * hI + mI : ℤ) = 60 * (hI.toNat : ℤ) + (mI.toNat : ℤ) := by omega
      rw [hdiv, hz2]
      push_cast
      ring
    rw [show ((⌊q * 60⌋ : ℤ) : ℚ) / 60 = (hI.toNat : ℚ) + (mI.toNat : ℚ) / 60 from by
      rw [hcast]; ring]
/-! ## Claim C3: summary totals -/
/-- Counterexample to claim C3: two matched durations of 1:30:30 sum to
3:01:00 at full precision, but the summary reports 03:00 because each
row's overtime was truncated to whole minutes (via its RKP_PIC display
string) before the summation — the full-precision per-row sum the claim
asserts would display 03:01. -/
theorem c3_counterexample :
    (create_summary_table procTwo.1).map (fun r => r.rkpPic) = [("03:00")]
    ∧ hours_to_hhmm
        (specRkpHoursSumOf procTwo.1 (groupRows procTwo.1 ("name") (.str ("bob")))) = ("03:01")
    ∧ (("03:00") : String) ≠ ("03:01") := by
  with_unfolding_all decide
/-- Claim C3 (amended): the summary's normal-hours total is the
full-precision sum of the per-row converted values, formatted once; the
overtime total, however, is the sum of each row's RKP_PIC display string
re-parsed to hours — and re-parsing the display string of a nonnegative
value yields its value truncated to whole minutes, so per-row truncation
happens before the overtime summation. -/
theorem c3_amended :
    (∀ (t : Table) (c : String) (group : List (List CellValue)),
        t.headers.contains c = true →
        wtNormalHoursOf t (some c) group =
          ((group.map (fun r => convert_to_hours (rowCell t r c))).sum))
    ∧ (∀ (t : Table) (group : List (List CellValue)),
        rkpPicTotalHoursOf t group =
          (((group.map (fun r => rowCell t r rkpPicCol)).filter
              (fun v => decide (v ≠ .str ("00:00")))).map convert_to_hours).sum)
    ∧ (∀ q : ℚ, 0 ≤ q →
        convert_to_hours (.str (hours_to_hhmm q)) = ((⌊q * 60⌋ : ℤ) : ℚ) / 60) := by
  refine ⟨?_, ?_, fun q hq => convert_to_hours_of_hhmm q hq⟩
  · intro t c group hc
    have h0 : wtNormalHoursOf t (some c) group =
        if t.headers.contains c = true then
          group.foldl (fun acc r => acc + convert_to_hours (rowCell t r c)) 0
        else 0 := rfl
    rw [h0, if_pos hc]
    suffices h : ∀ (g : List (List CellValue)) (a : ℚ),
        g.foldl (fun acc r => acc + convert_to_hours (rowCell t r c)) a =
          a + ((g.map (fun r => convert_to_hours (rowCell t r c))).sum) by
      simpa using h group 0
    intro g
    induction g with
    | nil => intro a; simp
    | cons r rs ih =>
      intro a
      simp only [List.foldl_cons, List.map_cons, List.sum_cons, ih]
      ring
  · intro t group
    unfold rkpPicTotalHoursOf
    suffices h : ∀ (g : List (List CellValue)) (a : ℚ),
        g.foldl (rkpStep t) a =
          a + (((g.map (fun r => rowCell t r rkpPicCol)).filter
              (fun v => decide (v ≠ .str ("00:00")))).map convert_to_hours).sum by
      simpa using h group 0
    intro g
    induction g with
    | nil => intro a; simp
    | cons r rs ih =>
      intro a
      rw [List.foldl_cons, ih]
      by_cases h : rowCell t r rkpPicCol = .str ("00:00")
      · rw [show rkpStep t a r = a from by simp [rkpStep, h]]
        rw [List.map_cons, List.filter_cons]
        simp [h]
      · rw [show rkpStep t a r = a + convert_to_hours (rowCell t r rkpPicCol) from by
          simp [rkpStep, h]]
        rw [List.map_cons, List.filter_cons]
        simp [h]
        ring
/-- Witness for C3 (amended) at a concrete table and value. -/
theorem c3_amended_witness :
    wtNormalHoursOf tShiftPad (some ("shift")) [[CellValue.str ("a")]] =
      (([[CellValue.str ("a")]].map
          (fun r => convert_to_hours (rowCell tShiftPad r ("shift")))).sum)
    ∧ convert_to_hours (.str (hours_to_hhmm (181 / 120))) = ((⌊(181 / 120 : ℚ) * 60⌋ : ℤ) : ℚ) / 60 :=
  ⟨c3_amended.1 tShiftPad ("shift") [[CellValue.str ("a")]] (by with_unfolding_all decide),
   c3_amended.2.2 (181 / 120) (by with_unfolding_all decide)⟩
